import Mathlib

/-!
Shallow embedding of the core algorithms of `rqmonitor` (files
`rqmonitor/utils.py` and their callers in `rqmonitor/bp.py`): the
virtual pagination resolver (`find_start_block`, `resolve_jobs`, the job
search predicate `_apply_job_search` and the per-partition fetch
`list_jobs_in_queue_registry`), the bulk actions
(`delete_all_jobs_in_queues_registries`,
`requeue_all_jobs_in_failed_registry`) and the worker termination
routine `delete_workers`.

External collaborators (the Redis registries, `socket`, the SSH layer of
fabric/paramiko, `os.kill`) are modelled as explicit environment records
of pure functions, and the side effects the Python code performs against
them are recorded in explicit effect traces.
-/

namespace RQMonitor

/-! ## Job records and the search predicate (`utils.py` lines 316-332) -/

/-- A job, represented by the two fields the search predicate inspects. -/
structure JobRec where
  /-- the value of `str(job.args)` -/
  args_str : String
  func_name : String
deriving DecidableEq, Repr

/-- Python's substring test `needle in hay` on strings (case sensitive). -/
def isSubstr (needle hay : String) : Bool :=
  decide (needle.toList <:+: hay.toList)

/-- `_apply_job_search(job, search_query)`:
`if not search_query: return True` (Python falsy: `None` or `""`), then
`return search_query in str(job.args) or search_query in job.func_name`. -/
def _apply_job_search (job : JobRec) (search_query : Option String) : Bool :=
  match search_query with
  | none => true
  | some s => if s = "" then true else (isSubstr s job.args_str || isSubstr s job.func_name)

/-- `_apply_jobs_search(jobs, search_query)`: the list-comprehension filter. -/
def _apply_jobs_search (jobs : List JobRec) (search_query : Option String) : List JobRec :=
  jobs.filter (fun job => _apply_job_search job search_query)

/-! ## Partition model and `list_jobs_in_queue_registry` (lines 335-382)

`list_jobs_in_queue_registry(queue, registry, search_query, start, end=-1)`
dispatches on the registry name and, in every recognised branch, reads
the id range `[start, -1]` of that registry (all entries from index
`start` on), resolves the ids to records dropping the ones that no
longer resolve (`_fetch_many_jobs` and `Queue.get_jobs` both skip
vanished jobs), and filters by the search query.  The environment field
`live` gives, per (queue, registry name), the ordered list of entries
whose records still resolve; an unrecognised registry name leaves the
initial `result = []` untouched. -/

structure PagEnv where
  live : String → String → List JobRec

/-- The registry names recognised by the dispatch in
`list_jobs_in_queue_registry` (the five registry classes answer to their
string names as well; `"queued"` is the extra pseudo-registry branch). -/
def isRegistryName (registry : String) : Bool :=
  registry = "started" || registry = "finished" || registry = "failed" ||
    registry = "deferred" || registry = "scheduled" || registry = "queued"

/-- `list_jobs_in_queue_registry(queue, registry, search_query, start)` with
the default `end=-1` used by `resolve_jobs`: all live entries from index
`start` on, filtered by the search query. -/
def list_jobs_in_queue_registry (env : PagEnv) (queue registry : String)
    (search_query : Option String) (start : Nat) : List JobRec :=
  if isRegistryName registry then
    ((env.live queue registry).drop start).filter
      (fun job => _apply_job_search job search_query)
  else []

/-- One element of the `job_counts` list handed to `resolve_jobs`: a
(queue, registry, job_count) block. -/
structure Block where
  queue : String
  registry : String
  count : Nat
deriving DecidableEq, Repr

/-- Sum of the `count` fields of all blocks. -/
def totalCount (job_counts : List Block) : Nat :=
  (job_counts.map Block.count).sum

/-- Cumulative count of the first `i` blocks. -/
def cumBefore (job_counts : List Block) (i : Nat) : Nat :=
  ((job_counts.take i).map Block.count).sum

/-! ## `find_start_block` (lines 560-571) -/

/-- The loop of `find_start_block`: `i` is the enumeration index and
`cumulative_count` the running sum.  The body returns
`(i, start - (cumulative_count - block.count))` at the first block whose
cumulative count exceeds `start`, and `(-1, -1)` past the end. -/
def fsbGo (start : Nat) : Nat → Nat → List Block → Int × Int
  | _, _, [] => (-1, -1)
  | i, cumulative_count, block :: rest =>
    let c := cumulative_count + block.count
    if start < c then ((i : Int), (start : Int) - ((c : Int) - (block.count : Int)))
    else fsbGo start (i + 1) c rest

/-- `find_start_block(job_counts, start)`. -/
def find_start_block (job_counts : List Block) (start : Nat) : Int × Int :=
  fsbGo start 0 0 job_counts

/-! ## `resolve_jobs` (lines 574-602) -/

/-- The walk of `resolve_jobs` over `job_counts[start_block:]`: fetch the
current block from the cursor, append, reset the cursor to 0, return
`jobs[:length]` as soon as `len(jobs) >= length`, and `jobs[:length]`
when the blocks are exhausted. -/
def walkBlocks (env : PagEnv) (search_query : Option String) (length : Nat) :
    List Block → Nat → List JobRec → List JobRec
  | [], _, jobs => jobs.take length
  | block :: rest, cursor, jobs =>
    let jobs2 := jobs ++
      list_jobs_in_queue_registry env block.queue block.registry search_query cursor
    if length ≤ jobs2.length then jobs2.take length
    else walkBlocks env search_query length rest 0 jobs2

/-- `resolve_jobs(job_counts, start, length, search_query)`. -/
def resolve_jobs (env : PagEnv) (job_counts : List Block) (start length : Nat)
    (search_query : Option String) : List JobRec :=
  let sb := find_start_block job_counts start
  if sb.1 = -1 then []
  else walkBlocks env search_query length (job_counts.drop sb.1.toNat) sb.2.toNat []

/-- The concatenation of everything the walk could fetch: the first block
read from the cursor, every later block read from 0. -/
def availableFrom (env : PagEnv) (search_query : Option String) :
    List Block → Nat → List JobRec
  | [], _ => []
  | block :: rest, cursor =>
    list_jobs_in_queue_registry env block.queue block.registry search_query cursor ++
      availableFrom env search_query rest 0

/-! ## Bulk actions (`utils.py` lines 385-462)

`empty_queue` / `empty_registry` either complete or raise (the
environment's `Fails` predicates say which); `FailedJobRegistry.requeue`
per job either succeeds, raises `InvalidJobOperationError` (the only
exception the source catches), or raises something else. -/

inductive RequeueOutcome where
  | ok
  | invalidJobOp
  | otherFailure
deriving DecidableEq, Repr

/-- Side effects of the bulk actions: one entry per external call begun. -/
inductive ClearEffect where
  | emptyQueue (queue : String)
  | emptyReg (registry queue : String)
  | requeueJob (queue jobId : String)
deriving DecidableEq, Repr

structure BulkEnv where
  emptyQueueFails : String → Bool
  emptyRegFails : String → String → Bool
  failedJobIds : String → List String
  requeueOutcome : String → String → RequeueOutcome

/-- The inner `for registry in registries` loop of
`delete_all_jobs_in_queues_registries` for one queue.  There is no
`try`/`except` in the source: a raising clear aborts the iteration, which
the `Bool` component (an exception escaped) records. -/
def clearRegistriesForQueue (env : BulkEnv) (queue : String) :
    List String → List ClearEffect × Bool
  | [] => ([], false)
  | registry :: rest =>
    if registry = "queued" then
      if env.emptyQueueFails queue then ([ClearEffect.emptyQueue queue], true)
      else
        let r := clearRegistriesForQueue env queue rest
        (ClearEffect.emptyQueue queue :: r.1, r.2)
    else
      if env.emptyRegFails registry queue then ([ClearEffect.emptyReg registry queue], true)
      else
        let r := clearRegistriesForQueue env queue rest
        (ClearEffect.emptyReg registry queue :: r.1, r.2)

/-- `delete_all_jobs_in_queues_registries(queues, registries)` (lines
431-438): nested loops with no exception handling and no return value;
the trace lists the clears begun and the `Bool` is true when an
exception escaped (aborting everything after it). -/
def delete_all_jobs_in_queues_registries (env : BulkEnv) :
    List String → List String → List ClearEffect × Bool
  | [], _ => ([], false)
  | queue :: qs, registries =>
    let r := clearRegistriesForQueue env queue registries
    if r.2 then (r.1, true)
    else
      let r2 := delete_all_jobs_in_queues_registries env qs registries
      (r.1 ++ r2.1, r2.2)

/-- The inner `for job_id in job_ids` loop of
`requeue_all_jobs_in_failed_registry`: `InvalidJobOperationError` is
caught and counted, anything else escapes. -/
def requeueJobsInQueue (env : BulkEnv) (queue : String) :
    Nat → List String → List ClearEffect × Except Unit Nat
  | fail_count, [] => ([], Except.ok fail_count)
  | fail_count, jobId :: rest =>
    match env.requeueOutcome queue jobId with
    | RequeueOutcome.ok =>
      let r := requeueJobsInQueue env queue fail_count rest
      (ClearEffect.requeueJob queue jobId :: r.1, r.2)
    | RequeueOutcome.invalidJobOp =>
      let r := requeueJobsInQueue env queue (fail_count + 1) rest
      (ClearEffect.requeueJob queue jobId :: r.1, r.2)
    | RequeueOutcome.otherFailure =>
      ([ClearEffect.requeueJob queue jobId], Except.error ())

/-- The outer `for queue in queues` loop of
`requeue_all_jobs_in_failed_registry`, threading `fail_count`. -/
def requeueQueues (env : BulkEnv) : Nat → List String → List ClearEffect × Except Unit Nat
  | fail_count, [] => ([], Except.ok fail_count)
  | fail_count, queue :: qs =>
    let r := requeueJobsInQueue env queue fail_count (env.failedJobIds queue)
    match r.2 with
    | Except.error e => (r.1, Except.error e)
    | Except.ok f =>
      let r2 := requeueQueues env f qs
      (r.1 ++ r2.1, r2.2)

/-- `requeue_all_jobs_in_failed_registry(queues)` (lines 441-451):
returns `fail_count` unless an uncaught exception escapes. -/
def requeue_all_jobs_in_failed_registry (env : BulkEnv) (queues : List String) :
    List ClearEffect × Except Unit Nat :=
  requeueQueues env 0 queues

/-- Number of jobs in the list whose requeue raises
`InvalidJobOperationError`. -/
def countInvalid (env : BulkEnv) (queue : String) : List String → Nat
  | [] => 0
  | jobId :: rest =>
    (if env.requeueOutcome queue jobId = RequeueOutcome.invalidJobOp then 1 else 0) +
      countInvalid env queue rest

/-- Total `InvalidJobOperationError` count over all queues. -/
def invalidCount (env : BulkEnv) (queues : List String) : Nat :=
  (queues.map (fun queue => countInvalid env queue (env.failedJobIds queue))).sum

/-- Whether a single clear operation raises in the given environment. -/
def clearFails (env : BulkEnv) : ClearEffect → Bool
  | ClearEffect.emptyQueue queue => env.emptyQueueFails queue
  | ClearEffect.emptyReg registry queue => env.emptyRegFails registry queue
  | ClearEffect.requeueJob _ _ => false

/-- The full list of clears the nested loops of
`delete_all_jobs_in_queues_registries` would perform if nothing raised. -/
def clearOps (queues registries : List String) : List ClearEffect :=
  (queues.map (fun queue => registries.map (fun registry =>
    if registry = "queued" then ClearEffect.emptyQueue queue
    else ClearEffect.emptyReg registry queue))).flatten

/-- Run the clears in order and stop at (and including) the first that
raises. -/
def takeUntilFail (env : BulkEnv) : List ClearEffect → List ClearEffect × Bool
  | [] => ([], false)
  | op :: rest =>
    if clearFails env op then ([op], true)
    else
      let r := takeUntilFail env rest
      (op :: r.1, r.2)

/-! ## `delete_workers` (`utils.py` lines 85-166)

The loop header evaluates the list comprehension
`[Worker.find_by_key(...) for worker_id in worker_ids]` in full before
the first iteration, so every worker id is located up front.  Per
worker: an absent hostname is logged and skipped; a hostname equal to
`socket.gethostname()` gets a local `os.kill`; otherwise the hostname is
resolved to an address and the configured SSH host aliases are scanned
for one whose configured address equals it.  At the first matching
alias a connection is made, `ps -o user= -p pid` and then
`kill -2 pid` are run, and on success the whole function returns; the
failure branches raise `RQMonitorException`, classifying an
`UnexpectedExit` whose stderr contains "Operation not permitted" as an
ownership failure.  A hostname with no matching alias falls off the
alias loop and the outer loop simply continues. -/

structure WorkerRecord where
  hostname : Option String
  pid : Nat
deriving DecidableEq, Repr

/-- One entry of the parsed SSH configuration: `sshAlias` is an element
of `paramiko_ssh_config.get_hostnames()`, `resolvedIp` is
`lookup(alias).get("hostname")` and `sshUser` is `lookup(alias).get("user")`. -/
structure SSHConfigEntry where
  sshAlias : String
  resolvedIp : Option String
  sshUser : Option String
deriving DecidableEq, Repr

/-- What a fabric `Connection.run` call does: return a result object
(with its `failed` flag and captured streams) or raise `UnexpectedExit`. -/
inductive RunOutcome where
  | result (failed : Bool) (stdout stderr : String)
  | unexpectedExit (stdout stderr : String)
deriving DecidableEq, Repr

/-- Side effects of `delete_workers`, in order. -/
inductive Effect where
  | locate (workerId : String)
  | localKill (pid : Nat)
  | sshConnect (sshAlias : String)
  | sshRunPs (sshAlias : String) (pid : Nat)
  | sshRunKill (sshAlias : String) (pid : Nat)
deriving DecidableEq, Repr

/-- The distinct `RQMonitorException` raise sites of `delete_workers`. -/
inductive DWErr where
  | commandFailed
  | ownershipDenied (sshUser : Option String) (owner : Option String)
  | unexpectedFailure
deriving DecidableEq, Repr

/-- Result of processing one worker: fall through to the next iteration,
`return` from the function, or propagate an exception. -/
inductive StepResult where
  | cont
  | ret
  | err (e : DWErr)
deriving DecidableEq, Repr

/-- Overall outcome of a `delete_workers` call. -/
inductive DWOutcome where
  | done
  | raised (e : DWErr)
deriving DecidableEq, Repr

structure DWEnv where
  /-- `Worker.find_by_key` composed with the worker-key namespace. -/
  workers : String → WorkerRecord
  /-- `socket.gethostname()` -/
  localHostname : String
  /-- `socket.gethostbyname` -/
  resolveDns : String → String
  sshHosts : List SSHConfigEntry
  /-- running `ps -o user= -p pid` over SSH on a given alias -/
  runPs : String → Nat → RunOutcome
  /-- running `kill -2 pid` over SSH on a given alias -/
  runKill : String → Nat → RunOutcome

/-- Python's `str.strip(" \n\t")`. -/
def pyStrip (s : String) : String :=
  let ws : Char → Bool := fun c => c = ' ' || c = '\n' || c = '\t'
  String.mk (((s.toList.dropWhile ws).reverse.dropWhile ws).reverse)

/-- Classification of an `UnexpectedExit`: stderr containing
"Operation not permitted" becomes the ownership raise, anything else the
generic raise. -/
def classifyUnexpected (entry : SSHConfigEntry) (owner : Option String)
    (stderr : String) : DWErr :=
  if isSubstr "Operation not permitted" (pyStrip stderr) then
    DWErr.ownershipDenied entry.sshUser owner
  else DWErr.unexpectedFailure

/-- The SSH branch once an alias with a matching address is found: run
`ps` (owner query), then `kill -2`; `result_kill.failed` raises, a clean
kill makes the whole function `return`. -/
def signalOverSSH (env : DWEnv) (entry : SSHConfigEntry) (pid : Nat) :
    List Effect × StepResult :=
  match env.runPs entry.sshAlias pid with
  | RunOutcome.unexpectedExit _ stderr =>
    ([Effect.sshConnect entry.sshAlias, Effect.sshRunPs entry.sshAlias pid],
     StepResult.err (classifyUnexpected entry none stderr))
  | RunOutcome.result _ stdout _ =>
    let owner := pyStrip stdout
    match env.runKill entry.sshAlias pid with
    | RunOutcome.result failed _ _ =>
      ([Effect.sshConnect entry.sshAlias, Effect.sshRunPs entry.sshAlias pid,
        Effect.sshRunKill entry.sshAlias pid],
       if failed then StepResult.err DWErr.commandFailed else StepResult.ret)
    | RunOutcome.unexpectedExit _ stderr =>
      ([Effect.sshConnect entry.sshAlias, Effect.sshRunPs entry.sshAlias pid,
        Effect.sshRunKill entry.sshAlias pid],
       StepResult.err (classifyUnexpected entry (some owner) stderr))

/-- The `for hostname in paramiko_ssh_config.get_hostnames()` loop:
first entry whose configured address equals the worker's address gets
the SSH treatment; no match falls through to the next worker. -/
def findMatchingHost (env : DWEnv) (requiredIp : String) (pid : Nat) :
    List SSHConfigEntry → List Effect × StepResult
  | [] => ([], StepResult.cont)
  | entry :: rest =>
    if entry.resolvedIp = some requiredIp then signalOverSSH env entry pid
    else findMatchingHost env requiredIp pid rest

/-- The body of the outer loop of `delete_workers` for one located
worker record. -/
def processWorker (env : DWEnv) (w : WorkerRecord) : List Effect × StepResult :=
  match w.hostname with
  | none => ([], StepResult.cont)
  | some requested_hostname =>
    if env.localHostname = requested_hostname then
      ([Effect.localKill w.pid], StepResult.cont)
    else
      findMatchingHost env (env.resolveDns requested_hostname) w.pid env.sshHosts

/-- The outer loop over the located worker records. -/
def runWorkers (env : DWEnv) : List WorkerRecord → List Effect × DWOutcome
  | [] => ([], DWOutcome.done)
  | w :: rest =>
    let step := processWorker env w
    match step.2 with
    | StepResult.cont =>
      let r := runWorkers env rest
      (step.1 ++ r.1, r.2)
    | StepResult.ret => (step.1, DWOutcome.done)
    | StepResult.err e => (step.1, DWOutcome.raised e)

/-- `delete_workers(worker_ids)` (the `signal_to_pass` parameter does not
affect control flow): all ids are located by the list comprehension
before the loop body runs, then the loop processes the records. -/
def delete_workers (env : DWEnv) (worker_ids : List String) : List Effect × DWOutcome :=
  let located := worker_ids.map env.workers
  let r := runWorkers env located
  (worker_ids.map Effect.locate ++ r.1, r.2)

/-! ## Concrete inputs used by witnesses and counterexamples -/

/-- Two partitions with counts 2 and 3. -/
def jc0 : List Block := [⟨"qa", "queued", 2⟩, ⟨"qb", "failed", 3⟩]

/-- A store with no live jobs anywhere. -/
def env0 : PagEnv := ⟨fun _ _ => []⟩

/-- A store with 3 live jobs in `("q0", "queued")` and 5 in
`("q2", "started")`. -/
def envC6 : PagEnv :=
  ⟨fun queue registry =>
    if queue = "q0" ∧ registry = "queued" then
      [⟨"(1,)", "f0"⟩, ⟨"(2,)", "f1"⟩, ⟨"(3,)", "f2"⟩]
    else if queue = "q2" ∧ registry = "started" then
      [⟨"(4,)", "g0"⟩, ⟨"(5,)", "g1"⟩, ⟨"(6,)", "g2"⟩, ⟨"(7,)", "g3"⟩, ⟨"(8,)", "g4"⟩]
    else []⟩

def cb0 : Block := ⟨"q0", "queued", 3⟩

def cb1 : Block := ⟨"q1", "failed", 0⟩

def cb2 : Block := ⟨"q2", "started", 5⟩

def sendEmailJob : JobRec := ⟨"()", "sendEmail"⟩

def purgeCacheJob : JobRec := ⟨"()", "purgeCache"⟩

/-- A remote worker whose resolved address `10.0.0.9` matches no
configured SSH alias (the only alias resolves to `10.0.0.8`). -/
def env3 : DWEnv :=
  ⟨fun _ => ⟨some "remote1", 7⟩, "local", fun _ => "10.0.0.9",
   [⟨"aliasA", some "10.0.0.8", some "root"⟩],
   fun _ _ => RunOutcome.result false "root" "",
   fun _ _ => RunOutcome.result false "" ""⟩

/-- A worker record with no hostname. -/
def env4 : DWEnv :=
  ⟨fun _ => ⟨none, 5⟩, "local", fun h => h, [],
   fun _ _ => RunOutcome.result false "" "",
   fun _ _ => RunOutcome.result false "" ""⟩

/-- A worker on the local machine. -/
def envC5 : DWEnv :=
  ⟨fun _ => ⟨some "local", 9⟩, "local", fun h => h, [],
   fun _ _ => RunOutcome.result false "" "",
   fun _ _ => RunOutcome.result false "" ""⟩

/-- Two remote workers; the first one's address matches `aliasA` and both
remote commands succeed, so its signal is delivered over SSH. -/
def env10 : DWEnv :=
  ⟨fun workerId => if workerId = "w1" then ⟨some "remote1", 7⟩ else ⟨some "remote2", 8⟩,
   "local",
   fun h => if h = "remote1" then "10.0.0.1" else "10.0.0.2",
   [⟨"aliasA", some "10.0.0.1", some "root"⟩],
   fun _ _ => RunOutcome.result false "deploy\n" "",
   fun _ _ => RunOutcome.result false "" ""⟩

/-- Clearing queue `"b"` raises; everything else succeeds. -/
def env2 : BulkEnv :=
  ⟨fun queue => queue = "b", fun _ _ => false, fun _ => [],
   fun _ _ => RequeueOutcome.ok⟩

/-- Queue `"qa"` has two failed jobs of which `"j2"` raises
`InvalidJobOperationError` on requeue; no requeue raises anything else. -/
def envC2w : BulkEnv :=
  ⟨fun _ => false, fun _ _ => false,
   fun queue => if queue = "qa" then ["j1", "j2"] else [],
   fun _ jobId => if jobId = "j2" then RequeueOutcome.invalidJobOp
     else RequeueOutcome.ok⟩

/-! ## Helper lemmas -/

lemma cumBefore_zero (bs : List Block) : cumBefore bs 0 = 0 := by
  simp [cumBefore]

lemma cumBefore_cons_succ (b : Block) (bs : List Block) (k : Nat) :
    cumBefore (b :: bs) (k + 1) = b.count + cumBefore bs k := by
  simp [cumBefore, List.take_succ_cons]

lemma totalCount_cons (b : Block) (bs : List Block) :
    totalCount (b :: bs) = b.count + totalCount bs := by
  simp [totalCount]

/-- Full characterisation of the `find_start_block` loop: starting from a
running sum `cum ≤ start`, either the window start falls inside the
remaining blocks — and the loop stops at the first block whose
cumulative count exceeds `start`, reporting the in-block offset — or it
does not and the loop yields the `(-1, -1)` sentinel. -/
lemma fsbGo_spec (start : Nat) (bs : List Block) :
    ∀ (i cum : Nat), cum ≤ start →
    (start < cum + totalCount bs →
      ∃ k : Nat,
        fsbGo start i cum bs =
          (((i + k : Nat) : Int), ((start : Int) - ((cum + cumBefore bs k : Nat) : Int)))
        ∧ cum + cumBefore bs k ≤ start
        ∧ start < cum + cumBefore bs (k + 1)
        ∧ ∀ j : Nat, j < k → cum + cumBefore bs (j + 1) ≤ start)
    ∧ (cum + totalCount bs ≤ start → fsbGo start i cum bs = (-1, -1)) := by
  induction bs with
  | nil =>
    intro i cum hcum
    refine ⟨fun h => absurd h (by simp [totalCount]; omega), fun _ => rfl⟩
  | cons b bs ih =>
    intro i cum hcum
    by_cases hb : start < cum + b.count
    · refine ⟨fun _ => ?_, fun h => ?_⟩
      · refine ⟨0, ?_, ?_, ?_, ?_⟩
        · show fsbGo start i cum (b :: bs) = _
          simp only [fsbGo, if_pos hb, Prod.mk.injEq]
          rw [cumBefore_zero]
          refine ⟨by push_cast; ring, by push_cast; ring⟩
        · rw [cumBefore_zero]; omega
        · rw [cumBefore_cons_succ, cumBefore_zero]; omega
        · intro j hj; omega
      · exfalso
        rw [totalCount_cons] at h
        omega
    · push_neg at hb
      have hstep : fsbGo start i cum (b :: bs) = fsbGo start (i + 1) (cum + b.count) bs := by
        simp only [fsbGo, if_neg (by omega : ¬ start < cum + b.count)]
      have ih2 := ih (i + 1) (cum + b.count) hb
      constructor
      · intro h
        rw [totalCount_cons] at h
        obtain ⟨k, heq, h1, h2, h3⟩ := ih2.1 (by omega)
        refine ⟨k + 1, ?_, ?_, ?_, ?_⟩
        · rw [hstep, heq, cumBefore_cons_succ, Prod.mk.injEq]
          refine ⟨by push_cast; ring, by push_cast; ring⟩
        · rw [cumBefore_cons_succ]; omega
        · rw [cumBefore_cons_succ]; omega
        · intro j hj
          match j with
          | 0 => rw [cumBefore_cons_succ, cumBefore_zero]; omega
          | j' + 1 =>
            rw [cumBefore_cons_succ]
            have := h3 j' (by omega)
            omega
      · intro h
        rw [totalCount_cons] at h
        rw [hstep]
        exact ih2.2 (by omega)

/-- The walk of `resolve_jobs` returns the first `length` elements of
everything fetchable from the cursor on. -/
lemma walkBlocks_eq (env : PagEnv) (search_query : Option String) (length : Nat) :
    ∀ (bs : List Block) (cursor : Nat) (acc : List JobRec),
      walkBlocks env search_query length bs cursor acc =
        (acc ++ availableFrom env search_query bs cursor).take length := by
  intro bs
  induction bs with
  | nil => intro cursor acc; simp [walkBlocks, availableFrom]
  | cons b bs ih =>
    intro cursor acc
    show walkBlocks env search_query length (b :: bs) cursor acc = _
    simp only [walkBlocks, availableFrom]
    by_cases hl : length ≤
        (acc ++ list_jobs_in_queue_registry env b.queue b.registry search_query cursor).length
    · rw [if_pos hl, ← List.append_assoc, List.take_append_of_le_length hl]
    · rw [if_neg hl, ih 0 _, List.append_assoc]

lemma filter_search_none (l : List JobRec) :
    l.filter (fun job => _apply_job_search job none) = l := by
  simp [_apply_job_search]

lemma list_jobs_none_zero (env : PagEnv) (queue registry : String)
    (h : isRegistryName registry = true) :
    list_jobs_in_queue_registry env queue registry none 0 = env.live queue registry := by
  simp [list_jobs_in_queue_registry, h, filter_search_none]

lemma findMatchingHost_no_match (env : DWEnv) (requiredIp : String) (pid : Nat) :
    ∀ hosts : List SSHConfigEntry,
      (∀ entry ∈ hosts, entry.resolvedIp ≠ some requiredIp) →
      findMatchingHost env requiredIp pid hosts = ([], StepResult.cont) := by
  intro hosts
  induction hosts with
  | nil => intro _; rfl
  | cons e hs ih =>
    intro hm
    rw [findMatchingHost, if_neg (hm e (List.mem_cons_self e hs))]
    exact ih (fun x hx => hm x (List.mem_cons_of_mem e hx))

lemma requeueJobsInQueue_spec (env : BulkEnv) (queue : String)
    (hno : ∀ jobId, env.requeueOutcome queue jobId ≠ RequeueOutcome.otherFailure) :
    ∀ (jobs : List String) (fail_count : Nat),
      requeueJobsInQueue env queue fail_count jobs =
        (jobs.map (ClearEffect.requeueJob queue),
         Except.ok (fail_count + countInvalid env queue jobs)) := by
  intro jobs
  induction jobs with
  | nil => intro fail_count; simp [requeueJobsInQueue, countInvalid]
  | cons j js ih =>
    intro fail_count
    rcases ho : env.requeueOutcome queue j with _ | _ | _
    · rw [requeueJobsInQueue]
      simp only [ho, ih fail_count, List.map_cons, countInvalid, Prod.mk.injEq]
      refine ⟨trivial, ?_⟩
      simp
    · rw [requeueJobsInQueue]
      simp only [ho, ih (fail_count + 1), List.map_cons, countInvalid, Prod.mk.injEq]
      refine ⟨trivial, ?_⟩
      congr 1
      rw [if_pos trivial]
      omega
    · exact absurd ho (hno j)

lemma requeueQueues_spec (env : BulkEnv)
    (hno : ∀ queue jobId, env.requeueOutcome queue jobId ≠ RequeueOutcome.otherFailure) :
    ∀ (queues : List String) (fail_count : Nat),
      requeueQueues env fail_count queues =
        ((queues.map (fun queue =>
            (env.failedJobIds queue).map (ClearEffect.requeueJob queue))).flatten,
         Except.ok (fail_count + invalidCount env queues)) := by
  intro queues
  induction queues with
  | nil => intro fail_count; simp [requeueQueues, invalidCount]
  | cons q qs ih =>
    intro fail_count
    rw [requeueQueues]
    simp only [requeueJobsInQueue_spec env q (hno q) (env.failedJobIds q) fail_count]
    simp only [ih, List.map_cons, List.flatten_cons, Prod.mk.injEq]
    refine ⟨trivial, ?_⟩
    simp only [invalidCount, List.map_cons, List.sum_cons]
    congr 1
    omega

lemma takeUntilFail_append (env : BulkEnv) (l1 l2 : List ClearEffect) :
    takeUntilFail env (l1 ++ l2) =
      if (takeUntilFail env l1).2 then takeUntilFail env l1
      else ((takeUntilFail env l1).1 ++ (takeUntilFail env l2).1, (takeUntilFail env l2).2) := by
  induction l1 with
  | nil => simp [takeUntilFail]
  | cons op l1 ih =>
    by_cases hop : clearFails env op
    · simp [takeUntilFail, hop]
    · have hL : takeUntilFail env (op :: (l1 ++ l2)) =
          (op :: (takeUntilFail env (l1 ++ l2)).1, (takeUntilFail env (l1 ++ l2)).2) := by
        simp [takeUntilFail, hop]
      have hR : takeUntilFail env (op :: l1) =
          (op :: (takeUntilFail env l1).1, (takeUntilFail env l1).2) := by
        simp [takeUntilFail, hop]
      rw [List.cons_append, hL, hR, ih]
      by_cases h1 : (takeUntilFail env l1).2
      · simp [h1]
      · simp [h1]

lemma clearRegistriesForQueue_eq (env : BulkEnv) (queue : String)
    (registries : List String) :
    clearRegistriesForQueue env queue registries =
      takeUntilFail env (registries.map (fun registry =>
        if registry = "queued" then ClearEffect.emptyQueue queue
        else ClearEffect.emptyReg registry queue)) := by
  induction registries with
  | nil => rfl
  | cons registry rest ih =>
    by_cases hq : registry = "queued"
    · by_cases hf : env.emptyQueueFails queue
      · simp [clearRegistriesForQueue, takeUntilFail, hq, hf, clearFails]
      · simp [clearRegistriesForQueue, takeUntilFail, hq, hf, clearFails, ih]
    · by_cases hf : env.emptyRegFails registry queue
      · simp [clearRegistriesForQueue, takeUntilFail, hq, hf, clearFails]
      · simp [clearRegistriesForQueue, takeUntilFail, hq, hf, clearFails, ih]

/-- `delete_all_jobs_in_queues_registries` performs the nested clears in
order and stops at the first one that raises. -/
lemma delete_all_eq_takeUntilFail (env : BulkEnv) (queues registries : List String) :
    delete_all_jobs_in_queues_registries env queues registries =
      takeUntilFail env (clearOps queues registries) := by
  induction queues with
  | nil => rfl
  | cons queue qs ih =>
    simp only [delete_all_jobs_in_queues_registries,
      clearRegistriesForQueue_eq env queue registries, ih, clearOps, List.map_cons,
      List.flatten_cons]
    rw [takeUntilFail_append]
    by_cases h : (takeUntilFail env (registries.map (fun registry =>
        if registry = "queued" then ClearEffect.emptyQueue queue
        else ClearEffect.emptyReg registry queue))).2
    · rw [if_pos h, if_pos h]
      exact Prod.ext_iff.mpr ⟨rfl, h.symm⟩
    · rw [if_neg h, if_neg h]

/-! ## Claim theorems -/

/-- Claim C1: for every ordered list of partition counts and every
start ≥ 0, `find_start_block` returns the index of the first partition
whose cumulative count strictly exceeds `start` together with the
in-partition offset `start` minus the cumulative count of all earlier
partitions; when `start` is at least the total count (including the
empty list), it returns the `(-1, -1)` sentinel and `resolve_jobs`
returns the empty list, never an error. -/
theorem find_start_block_resolve_spec (job_counts : List Block) (start : Nat) :
    (start < totalCount job_counts →
      ∃ i : Nat,
        find_start_block job_counts start =
          ((i : Int), ((start : Int) - ((cumBefore job_counts i : Nat) : Int)))
        ∧ start < cumBefore job_counts (i + 1)
        ∧ ∀ j : Nat, j < i → cumBefore job_counts (j + 1) ≤ start)
    ∧ (totalCount job_counts ≤ start →
      find_start_block job_counts start = (-1, -1)
        ∧ ∀ (env : PagEnv) (length : Nat) (search_query : Option String),
            resolve_jobs env job_counts start length search_query = []) := by
  have h := fsbGo_spec start job_counts 0 0 (Nat.zero_le start)
  constructor
  · intro hlt
    obtain ⟨k, heq, h1, h2, h3⟩ := h.1 (by omega)
    refine ⟨k, by simpa [find_start_block] using heq, by simpa using h2,
      fun j hj => by simpa using h3 j hj⟩
  · intro hge
    have heq : find_start_block job_counts start = (-1, -1) := by
      simpa [find_start_block] using h.2 (by omega)
    refine ⟨heq, fun env length search_query => ?_⟩
    simp [resolve_jobs, heq]

/-- Witness for C1 at `jc0 = [count 2, count 3]`: the in-window case at
`start = 3` and the past-the-end case at `start = 99`. -/
theorem find_start_block_resolve_spec_witness :
    (∃ i : Nat,
        find_start_block jc0 3 =
          ((i : Int), ((3 : Int) - ((cumBefore jc0 i : Nat) : Int)))
        ∧ 3 < cumBefore jc0 (i + 1)
        ∧ ∀ j : Nat, j < i → cumBefore jc0 (j + 1) ≤ 3)
    ∧ (find_start_block jc0 99 = (-1, -1)
        ∧ resolve_jobs env0 jc0 99 5 none = []) :=
  ⟨(find_start_block_resolve_spec jc0 3).1 (by decide),
   ⟨((find_start_block_resolve_spec jc0 99).2 (by decide)).1,
    ((find_start_block_resolve_spec jc0 99).2 (by decide)).2 env0 5 none⟩⟩

/-- Claim C2 counterexample: clearing 3 queues where the second raises.
The source has no per-item exception handling, so only 2 of the 3 clears
are attempted (`"c"` is never cleared), the exception escapes and no
failure count is reported — not attempted = 3 with 1 failure counted. -/
theorem delete_all_aborts_on_failure_cex :
    delete_all_jobs_in_queues_registries env2 ["a", "b", "c"] ["queued"] =
      ([ClearEffect.emptyQueue "a", ClearEffect.emptyQueue "b"], true)
    ∧ ClearEffect.emptyQueue "c" ∉
        (delete_all_jobs_in_queues_registries env2 ["a", "b", "c"] ["queued"]).1 := by
  constructor
  · decide
  · decide

/-- Claim C2 (amended): `requeue_all_jobs_in_failed_registry` attempts
every failed job of every queue independently, counts the
`InvalidJobOperationError` failures and returns the count (when no other
exception kind occurs); `delete_all_jobs_in_queues_registries`, by
contrast, has no per-item error handling — it performs the clears in
order, stops at the first one that raises, and reports no failure
count. -/
theorem bulk_actions_failure_handling (env : BulkEnv) (queues : List String)
    (hno : ∀ queue jobId, env.requeueOutcome queue jobId ≠ RequeueOutcome.otherFailure) :
    (requeue_all_jobs_in_failed_registry env queues).1 =
        (queues.map (fun queue =>
          (env.failedJobIds queue).map (ClearEffect.requeueJob queue))).flatten
    ∧ (requeue_all_jobs_in_failed_registry env queues).2 =
        Except.ok (invalidCount env queues)
    ∧ ∀ (qs registries : List String),
        delete_all_jobs_in_queues_registries env qs registries =
          takeUntilFail env (clearOps qs registries) := by
  have h := requeueQueues_spec env hno queues 0
  rw [requeue_all_jobs_in_failed_registry, h]
  exact ⟨rfl, by simp, fun qs registries => delete_all_eq_takeUntilFail env qs registries⟩

/-- Witness for the amended C2: two queues, one invalid-operation
failure; every job is attempted and the count comes back. -/
theorem bulk_actions_failure_handling_witness :
    (requeue_all_jobs_in_failed_registry envC2w ["qa", "qb"]).2 =
      Except.ok (invalidCount envC2w ["qa", "qb"]) :=
  (bulk_actions_failure_handling envC2w ["qa", "qb"]
    (fun queue jobId => by
      show (if jobId = "j2" then RequeueOutcome.invalidJobOp else RequeueOutcome.ok) ≠ _
      split <;> simp)).2.1

/-- Claim C3 counterexample: a remote worker whose resolved address
matches no configured SSH alias is silently skipped — the call completes
normally (`done`, no exception raised and no failure value returned), so
no `NoMatchingHost`-style failure is surfaced to the caller. -/
theorem delete_workers_no_matching_host_cex :
    delete_workers env3 ["w1"] = ([Effect.locate "w1"], DWOutcome.done) := by
  decide

/-- Claim C3 (amended): when the worker's hostname resolves to an
address matching no configured SSH alias's resolved address, zero SSH
session attempts are made and the worker is silently skipped (the loop
continues; nothing is raised or surfaced to the caller). -/
theorem delete_workers_no_matching_host (env : DWEnv) (w : WorkerRecord) (h : String)
    (hh : w.hostname = some h) (hnl : env.localHostname ≠ h)
    (hm : ∀ entry ∈ env.sshHosts, entry.resolvedIp ≠ some (env.resolveDns h)) :
    processWorker env w = ([], StepResult.cont) := by
  simp only [processWorker, hh, if_neg hnl]
  exact findMatchingHost_no_match env (env.resolveDns h) w.pid env.sshHosts hm

/-- Witness for the amended C3 in the `env3` environment. -/
theorem delete_workers_no_matching_host_witness :
    processWorker env3 ⟨some "remote1", 7⟩ = ([], StepResult.cont) :=
  delete_workers_no_matching_host env3 ⟨some "remote1", 7⟩ "remote1" rfl
    (by decide) (by decide)

/-- Claim C4 counterexample: a worker record with an absent hostname
makes `delete_workers` complete normally (`done`) having performed no
action — there is no surfaced `HostUnreachable`-style failure, only a
log line and a `continue`. -/
theorem delete_workers_absent_hostname_cex :
    delete_workers env4 ["w1"] = ([Effect.locate "w1"], DWOutcome.done) := by
  decide

/-- Claim C4 (amended): a located worker record with an absent hostname
is skipped — no signal is delivered (in particular it is not treated as
local) and no SSH is attempted, the loop continues with the next worker,
and no failure is surfaced (the source only logs). -/
theorem delete_workers_absent_hostname (env : DWEnv) (w : WorkerRecord)
    (hh : w.hostname = none) :
    processWorker env w = ([], StepResult.cont) := by
  simp [processWorker, hh]

/-- Witness for the amended C4 in the `env4` environment. -/
theorem delete_workers_absent_hostname_witness :
    processWorker env4 ⟨none, 5⟩ = ([], StepResult.cont) :=
  delete_workers_absent_hostname env4 ⟨none, 5⟩ rfl

/-- Claim C5: when a worker's recorded hostname equals the local
machine's hostname, the termination signal is delivered directly to the
local process id (`os.kill`) and processing of that worker ends there
with the loop continuing — the effect trace is exactly the local kill,
so no SSH discovery, connection or session is ever attempted for that
worker. -/
theorem delete_workers_local_delivery (env : DWEnv) (w : WorkerRecord) (h : String)
    (hh : w.hostname = some h) (hl : env.localHostname = h) :
    processWorker env w = ([Effect.localKill w.pid], StepResult.cont) := by
  simp [processWorker, hh, hl]

/-- Witness for C5 in the `envC5` environment. -/
theorem delete_workers_local_delivery_witness :
    processWorker envC5 ⟨some "local", 9⟩ = ([Effect.localKill 9], StepResult.cont) :=
  delete_workers_local_delivery envC5 ⟨some "local", 9⟩ "local" rfl rfl

/-- Claim C6: for partitions with counts `[3, 0, 5]`, `start = 0` and
`length = 4`, when each partition's live entries equal its stated count,
`resolve_jobs` returns exactly the 3 entries of partition 0 followed by
the first entry of partition 2, in order; partition 1 contributes
nothing. -/
theorem resolve_jobs_skips_empty_partition (env : PagEnv) (b0 b1 b2 : Block)
    (hc0 : b0.count = 3) (hc1 : b1.count = 0) (hc2 : b2.count = 5)
    (hr0 : isRegistryName b0.registry = true) (hr1 : isRegistryName b1.registry = true)
    (hr2 : isRegistryName b2.registry = true)
    (hl0 : (env.live b0.queue b0.registry).length = 3)
    (hl1 : (env.live b1.queue b1.registry).length = 0)
    (hl2 : (env.live b2.queue b2.registry).length = 5) :
    resolve_jobs env [b0, b1, b2] 0 4 none =
      env.live b0.queue b0.registry ++ (env.live b2.queue b2.registry).take 1 := by
  have hfsb : find_start_block [b0, b1, b2] 0 = (0, 0) := by
    simp [find_start_block, fsbGo, hc0]
  have h1nil : env.live b1.queue b1.registry = [] := List.length_eq_zero.mp hl1
  rw [resolve_jobs, hfsb]
  norm_num
  rw [walkBlocks_eq]
  simp only [List.nil_append, List.drop_zero, Int.toNat_zero]
  simp only [availableFrom, list_jobs_none_zero _ _ _ hr0, list_jobs_none_zero _ _ _ hr1,
    list_jobs_none_zero _ _ _ hr2, h1nil, List.nil_append, List.append_nil]
  rw [List.take_append_eq_append_take, hl0, List.take_of_length_le (by omega)]

/-- Witness for C6 in the concrete store `envC6`. -/
theorem resolve_jobs_skips_empty_partition_witness :
    resolve_jobs envC6 [cb0, cb1, cb2] 0 4 none =
      envC6.live cb0.queue cb0.registry ++ (envC6.live cb2.queue cb2.registry).take 1 :=
  resolve_jobs_skips_empty_partition envC6 cb0 cb1 cb2 rfl rfl rfl
    (by decide) (by decide) (by decide) (by decide) (by decide) (by decide)

/-- Claim C7: for every partition list, start and positive length,
`resolve_jobs` returns at most `length` records; and away from the
sentinel the result is exactly the first `length` elements of everything
fetchable from the located cursor on — the last fetched block's
overshoot is truncated to exactly `length`. -/
theorem resolve_jobs_window (env : PagEnv) (job_counts : List Block)
    (start length : Nat) (search_query : Option String) (hlen : 0 < length) :
    (resolve_jobs env job_counts start length search_query).length ≤ length
    ∧ ((find_start_block job_counts start).1 ≠ -1 →
        resolve_jobs env job_counts start length search_query =
          (availableFrom env search_query
              (job_counts.drop (find_start_block job_counts start).1.toNat)
              (find_start_block job_counts start).2.toNat).take length) := by
  by_cases h : (find_start_block job_counts start).1 = -1
  · rw [resolve_jobs, if_pos h]
    exact ⟨by simp, fun hc => absurd h hc⟩
  · rw [resolve_jobs, if_neg h, walkBlocks_eq, List.nil_append]
    exact ⟨List.length_take_le _ _, fun _ => rfl⟩

/-- Witness for C7 at a concrete window. -/
theorem resolve_jobs_window_witness :
    (resolve_jobs envC6 [cb0, cb1, cb2] 0 4 none).length ≤ 4 :=
  (resolve_jobs_window envC6 [cb0, cb1, cb2] 0 4 none (by decide)).1

/-- Claim C8: the job search predicate matches a job iff the query is a
case-sensitive substring of the stringified positional arguments or of
the function name; an absent (and hence also empty, the empty string
being a substring of everything) query matches every job; and for jobs
named `"sendEmail"` and `"purgeCache"`, the query `"send"` keeps only
the former. -/
theorem job_search_predicate_spec :
    (∀ (job : JobRec) (s : String),
        _apply_job_search job (some s) = true ↔
          (isSubstr s job.args_str = true ∨ isSubstr s job.func_name = true))
    ∧ (∀ job : JobRec, _apply_job_search job none = true)
    ∧ _apply_jobs_search [sendEmailJob, purgeCacheJob] (some "send") = [sendEmailJob] := by
  refine ⟨fun job s => ?_, fun job => rfl, by decide⟩
  by_cases hs : s = ""
  · subst hs
    simp only [_apply_job_search, if_true, true_iff, String.reduceEq]
    exact Or.inl (by simp [isSubstr, List.nil_infix])
  · simp [_apply_job_search, hs, Bool.or_eq_true]

/-- Claim C9 counterexample: in the terminal-sentinel case the offset
returned by `find_start_block` is `-1`, not an integer ≥ 0 — on the
empty partition list with `start = 0` the cursor is `(-1, -1)`. -/
theorem find_start_block_sentinel_offset_cex :
    find_start_block ([] : List Block) 0 = (-1, -1)
    ∧ (find_start_block ([] : List Block) 0).2 < 0 := by
  constructor
  · decide
  · decide

/-- Claim C9 (amended): every cursor produced by `find_start_block` has
partition index ≥ -1; the offset is ≥ 0 whenever the index is not the
`-1` sentinel, and in the sentinel case the offset is `-1` as well. -/
theorem find_start_block_cursor_bounds (job_counts : List Block) (start : Nat) :
    -1 ≤ (find_start_block job_counts start).1
    ∧ ((find_start_block job_counts start).1 ≠ -1 →
        0 ≤ (find_start_block job_counts start).2)
    ∧ ((find_start_block job_counts start).1 = -1 →
        (find_start_block job_counts start).2 = -1) := by
  have h := fsbGo_spec start job_counts 0 0 (Nat.zero_le start)
  rcases lt_or_le start (totalCount job_counts) with hlt | hge
  · obtain ⟨k, heq, h1, h2, h3⟩ := h.1 (by omega)
    have heq2 : find_start_block job_counts start =
        ((k : Int), (start : Int) - ((cumBefore job_counts k : Nat) : Int)) := by
      simpa [find_start_block] using heq
    rw [heq2]
    simp only [ne_eq]
    refine ⟨by omega, fun _ => by simp at h1 ⊢; omega, fun hk => absurd hk (by omega)⟩
  · have heq : find_start_block job_counts start = (-1, -1) := by
      simpa [find_start_block] using h.2 (by omega)
    rw [heq]
    refine ⟨by norm_num, fun hk => absurd rfl hk, fun _ => rfl⟩

/-- Witness for the amended C9: at `jc0, start = 3` the index is not the
sentinel and the offset is nonnegative. -/
theorem find_start_block_cursor_bounds_witness :
    0 ≤ (find_start_block jc0 3).2 :=
  (find_start_block_cursor_bounds jc0 3).2.1 (by decide)

/-- Claim C10 counterexample: with two workers where the first one's
signal is delivered over SSH, the second worker id is still located —
the list comprehension locates every id before the loop body runs — even
though it is never signalled. -/
theorem delete_workers_locates_all_cex :
    delete_workers env10 ["w1", "w2"] =
      ([Effect.locate "w1", Effect.locate "w2", Effect.sshConnect "aliasA",
        Effect.sshRunPs "aliasA" 7, Effect.sshRunKill "aliasA" 7], DWOutcome.done)
    ∧ Effect.locate "w2" ∈ (delete_workers env10 ["w1", "w2"]).1 := by
  constructor
  · decide
  · decide

/-- Claim C10 (amended): `delete_workers` locates all worker ids up
front (the trace always starts with every locate); after that, as soon
as one worker's signal is successfully delivered over SSH the function
returns immediately and no later worker is processed or signalled; a
worker whose step falls through (local delivery, absent hostname, or no
matching SSH alias) lets the iteration continue with the remaining
workers. -/
theorem delete_workers_stops_after_remote_delivery (env : DWEnv)
    (worker_ids : List String) :
    (delete_workers env worker_ids).1 =
        worker_ids.map Effect.locate ++ (runWorkers env (worker_ids.map env.workers)).1
    ∧ (∀ (w : WorkerRecord) (rest : List WorkerRecord),
        (processWorker env w).2 = StepResult.ret →
        runWorkers env (w :: rest) = ((processWorker env w).1, DWOutcome.done))
    ∧ (∀ (w : WorkerRecord) (rest : List WorkerRecord),
        (processWorker env w).2 = StepResult.cont →
        runWorkers env (w :: rest) =
          ((processWorker env w).1 ++ (runWorkers env rest).1,
           (runWorkers env rest).2)) := by
  refine ⟨rfl, fun w rest hw => ?_, fun w rest hw => ?_⟩
  · rw [runWorkers]
    simp only [hw]
  · rw [runWorkers]
    simp only [hw]

/-- Witness for the amended C10: in `env10` the first worker's remote
delivery succeeds and the run stops there. -/
theorem delete_workers_stops_after_remote_delivery_witness :
    runWorkers env10 [⟨some "remote1", 7⟩, ⟨some "remote2", 8⟩] =
      ((processWorker env10 ⟨some "remote1", 7⟩).1, DWOutcome.done) :=
  (delete_workers_stops_after_remote_delivery env10 ["w1", "w2"]).2.1
    ⟨some "remote1", 7⟩ [⟨some "remote2", 8⟩] (by decide)

end RQMonitor
